import Mathlib

/-!
Verification of `src/python/brica1/scheduler.py` (BriCA1 scheduler module).

The module defines an abstract `Scheduler` base class and three concrete
schedulers: `VirtualTimeSyncScheduler`, `VirtualTimeScheduler` (event-queue
based) and `RealTimeSyncScheduler`.  We embed the scheduler state and
operations shallowly: Python floats are modelled as exact rationals (ℚ),
component method calls are recorded in explicit call traces, the wall clock
and `time.sleep` of the real-time scheduler are modelled by an explicit
per-step trace of elapsed durations, and Python exceptions (TypeError from
an arity mismatch, AssertionError from a failed assert) are modelled with
`Except`.
-/

namespace BriCA

/-- Python exceptions that the scheduler code can raise. -/
inductive PyError where
  | typeError
  | assertionError
deriving DecidableEq, Repr

/-- Modelled from the spec: the component contract is an external collaborator
(`Component` is not under `src/`).  A component exposes `input(time)`, `fire()`,
`output(time)` and read-only attributes `offset`, `interval`, `last_input_time`;
`input(time)` records its argument as `last_input_time`.  Components are
identified by `id` (Python object identity); their internal computation is
opaque and does not change the timing attributes. -/
structure Component where
  id : Nat
  offset : ℚ
  interval : ℚ
  last_input_time : ℚ
deriving DecidableEq, Repr

/-- Modelled from the spec: `input(time)` records its argument as
`last_input_time`. -/
def Component.input (c : Component) (t : ℚ) : Component :=
  { c with last_input_time := t }

/-- Modelled from the spec: `fire()` performs opaque internal computation and
leaves the timing attributes unchanged. -/
def Component.fire (c : Component) : Component := c

/-- Modelled from the spec: `output(time)` flushes results and leaves the
timing attributes unchanged. -/
def Component.output (c : Component) (_t : ℚ) : Component := c

/-- One entry of the call trace a scheduler step produces: which lifecycle
method was invoked on which component, and with which time argument. -/
inductive CallEvent where
  | input (c : Nat) (t : ℚ)
  | fire (c : Nat)
  | output (c : Nat) (t : ℚ)
deriving DecidableEq, Repr

/-- State owned by the abstract `Scheduler` base class
(`Scheduler.__init__`, lines 32-46 of scheduler.py). -/
structure SchedulerState where
  num_steps : ℕ
  current_time : ℚ
  components : List Component
deriving DecidableEq, Repr

namespace Scheduler

/-- `Scheduler.__init__`: `num_steps = 0`, `current_time = 0.0`,
`components = []`. -/
def init : SchedulerState :=
  { num_steps := 0, current_time := 0, components := [] }

/-- `Scheduler.reset` (lines 48-61): sets `num_steps = 0`,
`current_time = 0.0`, `components = []`. -/
def reset (_s : SchedulerState) : SchedulerState :=
  { num_steps := 0, current_time := 0, components := [] }

/-- `Scheduler.update` (lines 63-74): `self.components = ca.get_all_components()`.
We pass the flattened component list directly. -/
def update (s : SchedulerState) (ca : List Component) : SchedulerState :=
  { s with components := ca }

end Scheduler

/-! ### VirtualTimeSyncScheduler -/

/-- State of `VirtualTimeSyncScheduler` (lines 90-136): the base scheduler
state plus the fixed `interval`. -/
structure VTSState extends SchedulerState where
  interval : ℚ
deriving DecidableEq, Repr

namespace VTSState

/-- `VirtualTimeSyncScheduler.__init__(interval=1.0)`. -/
def make (interval : ℚ) : VTSState :=
  { Scheduler.init with interval := interval }

/-- `reset` inherited from the base class: resets the base fields only. -/
def reset (s : VTSState) : VTSState :=
  { s with toSchedulerState := Scheduler.reset s.toSchedulerState }

/-- `update` inherited from the base class. -/
def update (s : VTSState) (ca : List Component) : VTSState :=
  { s with toSchedulerState := Scheduler.update s.toSchedulerState ca }

/-- `VirtualTimeSyncScheduler.step` (lines 110-136):
for each component `input(current_time)`; for each component `fire()`;
`current_time += interval`; for each component `output(current_time)`;
return `current_time`.  Besides the new state and the return value we record
the trace of component calls in order. -/
def step (s : VTSState) : VTSState × ℚ × List CallEvent :=
  let t := s.current_time
  let comps1 := s.components.map (fun c => c.input t)
  let ev1 := s.components.map (fun c => CallEvent.input c.id t)
  let comps2 := comps1.map Component.fire
  let ev2 := comps1.map (fun c => CallEvent.fire c.id)
  let t2 := t + s.interval
  let comps3 := comps2.map (fun c => c.output t2)
  let ev3 := comps2.map (fun c => CallEvent.output c.id t2)
  ({ s with current_time := t2, components := comps3 }, t2, ev1 ++ ev2 ++ ev3)

/-- Iterated `step`, discarding return values and traces. -/
def stepN (s : VTSState) : ℕ → VTSState
  | 0 => s
  | n + 1 => (stepN s n).step.1

end VTSState

/-! ### VirtualTimeScheduler (event queue) -/

/-- `VirtualTimeScheduler.Event` (lines 143-165): a `(time, component)` pair;
`__lt__` compares by `time` only. -/
structure Event where
  time : ℚ
  component : Component
deriving DecidableEq, Repr

/-- `queue.PriorityQueue.get()` on a queue whose entries are compared by
`Event.__lt__`: removes and returns a minimal-time entry (`none` models the
call blocking forever on an empty queue).  Which minimal entry is removed on a
tie is an artifact of the heap; we extract the first occurrence of the
minimum, one legal resolution. -/
def getMin : List Event → Option (Event × List Event)
  | [] => none
  | e :: rest =>
    match getMin rest with
    | none => some (e, [])
    | some (m, rest2) =>
      if e.time ≤ m.time then some (e, rest) else some (m, e :: rest2)

/-- State of `VirtualTimeScheduler` (lines 138-222): the base scheduler state
plus `event_queue`, modelled as the multiset (list) of queued events. -/
structure VTState extends SchedulerState where
  event_queue : List Event
deriving DecidableEq, Repr

namespace VTState

/-- `VirtualTimeScheduler.__init__` (lines 167-180): base init plus a fresh
empty `PriorityQueue`. -/
def init : VTState :=
  { Scheduler.init with event_queue := [] }

/-- `VirtualTimeScheduler.update` (lines 182-197): `super().update(ca)`
replaces `components`, then for each component in the new list calls
`input(current_time)`, `fire()` and puts an event at
`component.offset + component.last_input_time + component.interval`.
Note the existing `event_queue` is NOT cleared: the new events are added to
whatever was already queued. -/
def update (s : VTState) (ca : List Component) : VTState :=
  let comps := ca.map (fun c => (c.input s.current_time).fire)
  let evs := comps.map (fun c => Event.mk (c.offset + c.last_input_time + c.interval) c)
  { s with components := comps, event_queue := s.event_queue ++ evs }

/-- Write-back of the in-place mutation of a component object: every
reference to it in `components` (identified by `id`) observes the new state. -/
def setComponent (cs : List Component) (c : Component) : List Component :=
  cs.map (fun x => if x.id = c.id then c else x)

/-- `VirtualTimeScheduler.step` (lines 199-222): dequeue a minimal event `e`;
`current_time = e.time`; on `e.component` call `output`, `input`, `fire`;
put a new event at `current_time + component.interval`; return
`current_time`.  `none` models the blocking `get()` on an empty queue. -/
def step (s : VTState) : Option (VTState × ℚ) :=
  match getMin s.event_queue with
  | none => none
  | some (e, rest) =>
    let t := e.time
    let c := ((e.component.output t).input t).fire
    let q := rest ++ [Event.mk (t + c.interval) c]
    some ({ s with current_time := t,
                   components := setComponent s.components c,
                   event_queue := q }, t)

/-- `reset` inherited from the base class: resets the base fields only (the
`event_queue` is untouched). -/
def reset (s : VTState) : VTState :=
  { s with toSchedulerState := Scheduler.reset s.toSchedulerState }

/-- `step`, keeping the state unchanged when the queue is empty. -/
def stepOnce (s : VTState) : VTState :=
  match s.step with
  | none => s
  | some (s2, _) => s2

/-- Iterated `stepOnce`. -/
def stepN (s : VTState) : ℕ → VTState
  | 0 => s
  | n + 1 => (s.stepN n).stepOnce

/-- Invariant used for monotonicity: every queued event is scheduled no
earlier than the current time and carries a component with a non-negative
interval. -/
def Good (s : VTState) : Prop :=
  ∀ e ∈ s.event_queue, s.current_time ≤ e.time ∧ 0 ≤ e.component.interval

instance (s : VTState) : Decidable s.Good :=
  inferInstanceAs (Decidable (∀ e ∈ s.event_queue,
    s.current_time ≤ e.time ∧ 0 ≤ e.component.interval))

end VTState

/-! ### RealTimeSyncScheduler -/

/-- State of `RealTimeSyncScheduler` (lines 224-318).  `lagged` is `none` as
long as the Python attribute has never been assigned (it is absent until the
first `step()`), and `some b` afterwards. -/
structure RTState extends SchedulerState where
  interval : ℚ
  last_input_time : ℚ
  last_output_time : ℚ
  last_spent : ℚ
  last_dt : ℚ
  lagged : Option Bool
deriving DecidableEq, Repr

namespace RTState

/-- The state built by `RealTimeSyncScheduler.__init__` (lines 230-247) just
before the trailing `self.set_interval(interval)` call: the four `last_*`
attributes are `-1.0`, the base fields are initialised, `lagged` has never
been assigned, and `interval` has not been assigned yet (placeholder `0`,
immediately overwritten by `set_interval` or discarded on its failure). -/
def preInit : RTState :=
  { num_steps := 0, current_time := 0, components := [],
    interval := 0,
    last_input_time := -1, last_output_time := -1, last_spent := -1,
    last_dt := -1, lagged := none }

/-- `RealTimeSyncScheduler.set_interval` (lines 255-257):
`self.interval = float(interval)` followed by `assert self.interval > 0.0`;
a failed assert raises `AssertionError` (the assignment has already
happened, but the object is then unusable/discarded by the raised error). -/
def set_interval (s : RTState) (i : ℚ) : Except PyError RTState :=
  let s2 := { s with interval := i }
  if 0 < s2.interval then Except.ok s2 else Except.error PyError.assertionError

/-- `RealTimeSyncScheduler.__init__(interval=1.0)` (lines 230-247): set the
`last_*` fields, run the base initialiser, then `set_interval(interval)`. -/
def make (interval : ℚ) : Except PyError RTState :=
  preInit.set_interval interval

/-- `RealTimeSyncScheduler.reset` (lines 250-252) is declared as
`def reset():` with NO `self` parameter, so the bound-method call
`scheduler.reset()` raises `TypeError` (arity mismatch: 1 argument given, 0
expected) before the body runs; the body could never run anyway, as it
references the unbound name `self`. -/
def resetCall (_s : RTState) : Except PyError RTState :=
  Except.error PyError.typeError

/-- The wall-clock trace of one `step()` call, as elapsed durations between
the four `current_time()` samples the code takes (lines 292, 301, 310, 316):
`t0` is the first sample; `fireDur` elapses over the input and fire loops;
`gap` elapses between the sample at line 301 and the one at line 310
(containing the optional `time.sleep`); `outDur` elapses over the output
loop. -/
structure RTTrace where
  t0 : ℚ
  fireDur : ℚ
  gap : ℚ
  outDur : ℚ
deriving DecidableEq, Repr

/-- The clock model: the clock is monotonic (phases take non-negative time)
and `time.sleep(d)` never returns early, so the elapsed time `gap` around the
sleep branch is at least the requested sleep `max (interval - fireDur) 0`
(it may be longer, a documented limitation of the timer); the two conjuncts
`0 ≤ gap` and `interval - fireDur ≤ gap` express exactly that. -/
def RTTrace.Valid (tr : RTTrace) (interval : ℚ) : Prop :=
  0 ≤ tr.fireDur ∧ 0 ≤ tr.outDur ∧ 0 ≤ tr.gap ∧ interval - tr.fireDur ≤ tr.gap

instance (tr : RTTrace) (interval : ℚ) : Decidable (tr.Valid interval) :=
  inferInstanceAs (Decidable (0 ≤ tr.fireDur ∧ 0 ≤ tr.outDur ∧ 0 ≤ tr.gap ∧
    interval - tr.fireDur ≤ tr.gap))

/-- Observable timing facts of one step: the wall-clock value stored into
`last_input_time` (line 292, start of the input phase), the sample taken at
line 310 (start of the output phase, passed to every `output()` call), and
the sleep duration the scheduler requested (0 when no `time.sleep` call is
made). -/
structure RTStepAux where
  inputPhaseStart : ℚ
  outputPhaseStart : ℚ
  sleepRequested : ℚ
deriving DecidableEq, Repr

/-- `RealTimeSyncScheduler.step` (lines 259-318):
`last_input_time = current_time(); current_time = last_input_time`;
`input(last_input_time)` on every component; `fire()` on every component;
`last_spent = current_time() - last_input_time`;
`last_dt = interval - last_spent` (a LOCAL variable — `self.last_dt` is not
written); `lagged = False`; if `last_dt > 0` sleep, elif `last_dt < 0`
`lagged = True`; sample `last_output_time`, `output(last_output_time)` on
every component, re-sample `last_output_time`; return `current_time`. -/
def step (s : RTState) (tr : RTTrace) : RTState × ℚ × RTStepAux :=
  let lit := tr.t0
  let spent := tr.fireDur
  let dt := s.interval - spent
  let lag : Bool := decide (dt < 0)
  let sleepReq : ℚ := if 0 < dt then dt else 0
  let lot1 := tr.t0 + tr.fireDur + tr.gap
  let lot2 := lot1 + tr.outDur
  let comps := ((s.components.map (fun c => c.input lit)).map
      Component.fire).map (fun c => c.output lot1)
  ({ s with last_input_time := lit,
            last_spent := spent,
            lagged := some lag,
            last_output_time := lot2,
            current_time := lot2,
            components := comps },
    lot2,
    { inputPhaseStart := lit, outputPhaseStart := lot1, sleepRequested := sleepReq })

end RTState

/-! ### Concrete example states used by witnesses and counterexamples -/

/-- A concrete component with interval 1. -/
def compA : Component := { id := 0, offset := 0, interval := 1, last_input_time := 0 }

/-- A concrete component with interval 2. -/
def compB : Component := { id := 1, offset := 0, interval := 2, last_input_time := 0 }

/-- An event-queue scheduler bound (once) to `[compA]`. -/
def vtEx : VTState := VTState.init.update [compA]

/-- The result of one `step()` on `vtEx` (the queue is non-empty, so the
default is never taken). -/
def vtExStep : VTState × ℚ := (vtEx.step).getD (vtEx, 0)

/-- A real-time scheduler as built by `RealTimeSyncScheduler(1)`. -/
def rtEx : RTState := { RTState.preInit with interval := 1 }

/-- A step trace in which the fire phase overruns the interval of `rtEx`
(2 > 1) and the remaining phases are instantaneous. -/
def trLag : RTState.RTTrace := { t0 := 0, fireDur := 2, gap := 0, outDur := 0 }

/-- A step trace in which the fire phase is instantaneous and the pacing
sleep runs for exactly the requested full interval of `rtEx`. -/
def trFast : RTState.RTTrace := { t0 := 0, fireDur := 0, gap := 1, outDur := 0 }

/-! ## Helper lemmas -/

@[simp] theorem Component.input_id (c : Component) (t : ℚ) : (c.input t).id = c.id := rfl

@[simp] theorem Component.input_offset (c : Component) (t : ℚ) :
    (c.input t).offset = c.offset := rfl

@[simp] theorem Component.input_interval (c : Component) (t : ℚ) :
    (c.input t).interval = c.interval := rfl

@[simp] theorem Component.input_last_input_time (c : Component) (t : ℚ) :
    (c.input t).last_input_time = t := rfl

@[simp] theorem Component.fire_eq (c : Component) : c.fire = c := rfl

@[simp] theorem Component.output_eq (c : Component) (t : ℚ) : c.output t = c := rfl

theorem getMin_none : ∀ {l : List Event}, getMin l = none → l = [] := by
  intro l h
  cases l with
  | nil => rfl
  | cons e rest =>
    exfalso
    simp only [getMin] at h
    cases hm : getMin rest with
    | none => simp only [hm] at h; exact Option.noConfusion h
    | some p =>
      obtain ⟨m, rest2⟩ := p
      simp only [hm] at h
      by_cases hle : e.time ≤ m.time
      · rw [if_pos hle] at h; exact Option.noConfusion h
      · rw [if_neg hle] at h; exact Option.noConfusion h

theorem getMin_perm : ∀ {l rest : List Event} {e : Event},
    getMin l = some (e, rest) → l.Perm (e :: rest) := by
  intro l
  induction l with
  | nil => intro rest e h; exact absurd h (by simp [getMin])
  | cons a tl ih =>
    intro rest e h
    simp only [getMin] at h
    cases hm : getMin tl with
    | none =>
      simp only [hm] at h
      cases h
      rw [getMin_none hm]
    | some p =>
      obtain ⟨m, rest2⟩ := p
      simp only [hm] at h
      by_cases hle : a.time ≤ m.time
      · rw [if_pos hle] at h
        cases h
        exact List.Perm.refl _
      · rw [if_neg hle] at h
        cases h
        exact ((ih hm).cons a).trans (List.Perm.swap _ _ _)

theorem getMin_le : ∀ {l rest : List Event} {e : Event},
    getMin l = some (e, rest) → ∀ x ∈ l, e.time ≤ x.time := by
  intro l
  induction l with
  | nil => intro rest e h; exact absurd h (by simp [getMin])
  | cons a tl ih =>
    intro rest e h x hx
    simp only [getMin] at h
    cases hm : getMin tl with
    | none =>
      simp only [hm] at h
      cases h
      rcases List.mem_cons.mp hx with hxa | hxtl
      · rw [hxa]
      · rw [getMin_none hm] at hxtl; exact absurd hxtl (List.not_mem_nil x)
    | some p =>
      obtain ⟨m, rest2⟩ := p
      simp only [hm] at h
      by_cases hle : a.time ≤ m.time
      · rw [if_pos hle] at h
        cases h
        rcases List.mem_cons.mp hx with hxa | hxtl
        · rw [hxa]
        · exact le_trans hle (ih hm x hxtl)
      · rw [if_neg hle] at h
        cases h
        rcases List.mem_cons.mp hx with hxa | hxtl
        · rw [hxa]; exact le_of_lt (lt_of_not_le hle)
        · exact ih hm x hxtl

theorem VTSState.step_current_time (s : VTSState) :
    s.step.1.current_time = s.current_time + s.interval := rfl

theorem VTSState.step_interval (s : VTSState) : s.step.1.interval = s.interval := rfl

theorem VTSState.step_num_steps (s : VTSState) : s.step.1.num_steps = s.num_steps := rfl

theorem VTSState.step_ret (s : VTSState) : s.step.2.1 = s.current_time + s.interval := rfl

theorem VTSState.stepN_interval (s : VTSState) (n : ℕ) :
    (s.stepN n).interval = s.interval := by
  induction n with
  | zero => rfl
  | succ k ih => rw [VTSState.stepN, VTSState.step_interval, ih]

theorem VTSState.stepN_current_time (s : VTSState) (n : ℕ) :
    (s.stepN n).current_time = s.current_time + n * s.interval := by
  induction n with
  | zero => simp [VTSState.stepN]
  | succ k ih =>
    rw [VTSState.stepN, VTSState.step_current_time, ih, VTSState.stepN_interval]
    push_cast
    ring

theorem VTSState.stepN_num_steps (s : VTSState) (n : ℕ) :
    (s.stepN n).num_steps = s.num_steps := by
  induction n with
  | zero => rfl
  | succ k ih => rw [VTSState.stepN, VTSState.step_num_steps, ih]

/-! ## Claims -/

/-- Claim C1 (code bug in `RealTimeSyncScheduler.reset`): the base-class
`reset()` sets `num_steps = 0`, `current_time = 0.0` and clears the
component list, and is idempotent; the two virtual-time schedulers inherit
it unchanged.  On `RealTimeSyncScheduler`, however, `reset` is declared
without the `self` parameter, so every call `r.reset()` raises `TypeError`
instead of resetting the state. -/
theorem C1_reset_behaviour :
    (∀ s : SchedulerState,
        Scheduler.reset s = { num_steps := 0, current_time := 0, components := [] }
        ∧ Scheduler.reset (Scheduler.reset s) = Scheduler.reset s)
    ∧ (∀ v : VTSState,
        v.reset.num_steps = 0 ∧ v.reset.current_time = 0 ∧ v.reset.components = []
        ∧ v.reset.reset = v.reset)
    ∧ (∀ w : VTState,
        w.reset.num_steps = 0 ∧ w.reset.current_time = 0 ∧ w.reset.components = []
        ∧ w.reset.reset = w.reset)
    ∧ (∀ r : RTState, r.resetCall = Except.error PyError.typeError) :=
  ⟨fun _ => ⟨rfl, rfl⟩, fun _ => ⟨rfl, rfl, rfl, rfl⟩,
   fun _ => ⟨rfl, rfl, rfl, rfl⟩, fun _ => rfl⟩

/-- Claim C3 counterexample: one `step()` on a freshly constructed
`VirtualTimeSyncScheduler(1.0)` leaves `num_steps = 0`, not `1` as the claim
requires. -/
theorem C3_counterexample : ¬ (((VTSState.make 1).stepN 1).num_steps = 1) := by
  decide

/-- Claim C3 amended: `num_steps` is initialised to 0 and reset to 0, but no
`step()` implementation ever increments it — after any number of steps of any
of the three schedulers, `num_steps` is unchanged (hence still 0 after
construction or reset). -/
theorem C3_num_steps_constant :
    (∀ (v : VTSState) (n : ℕ), (v.stepN n).num_steps = v.num_steps)
    ∧ (∀ (w : VTState) (n : ℕ),
        w.stepOnce.num_steps = w.num_steps ∧ (w.stepN n).num_steps = w.num_steps)
    ∧ (∀ (r : RTState) (tr : RTState.RTTrace), (r.step tr).1.num_steps = r.num_steps) := by
  refine ⟨VTSState.stepN_num_steps, ?_, fun r tr => rfl⟩
  have honce : ∀ w : VTState, w.stepOnce.num_steps = w.num_steps := by
    intro w
    unfold VTState.stepOnce VTState.step
    cases hm : getMin w.event_queue with
    | none => rfl
    | some p => rfl
  intro w n
  refine ⟨honce w, ?_⟩
  induction n with
  | zero => rfl
  | succ k ih => rw [VTState.stepN, honce, ih]

/-- Claim C6: starting from a fresh `VirtualTimeSyncScheduler` with
`interval = Δ` (and any bound component list), after `N` steps
`current_time = N·Δ` exactly, and the value the next step returns is
`(N+1)·Δ` — i.e. the value returned by the `N`-th step is `N·Δ`, in exact
rational arithmetic. -/
theorem C6_interval_accumulation (Δ : ℚ) (ca : List Component) (N : ℕ) :
    (((VTSState.make Δ).update ca).stepN N).current_time = N * Δ
    ∧ (((VTSState.make Δ).update ca).stepN N).step.2.1 = (N + 1) * Δ := by
  have h0 : (((VTSState.make Δ).update ca)).current_time = 0 := rfl
  have hi : (((VTSState.make Δ).update ca)).interval = Δ := rfl
  have hct := VTSState.stepN_current_time ((VTSState.make Δ).update ca) N
  rw [h0, hi, zero_add] at hct
  refine ⟨hct, ?_⟩
  rw [VTSState.step_ret, hct, VTSState.stepN_interval, hi]
  ring

/-- Claim C7: a single `step()` of `VirtualTimeSyncScheduler` produces the
strictly phase-ordered call trace: `input(t)` on every component in list
order with the pre-step time `t`, then `fire()` on every component in list
order, then the clock advances, then `output(t + interval)` on every
component in list order with the post-advance time; the returned value is
the post-advance time.  In particular no `fire()` call observes the
post-advance time. -/
theorem C7_phase_order (s : VTSState) :
    s.step.2.2
      = s.components.map (fun c => CallEvent.input c.id s.current_time)
        ++ s.components.map (fun c => CallEvent.fire c.id)
        ++ s.components.map (fun c => CallEvent.output c.id (s.current_time + s.interval))
    ∧ s.step.2.1 = s.current_time + s.interval := by
  constructor
  · simp [VTSState.step, List.map_map, Function.comp_def, Component.input,
      Component.fire]
  · rfl

/-! ## Event-queue scheduler lemmas -/

theorem VTState.step_some {s : VTState} {e : Event} {rest : List Event}
    (h : getMin s.event_queue = some (e, rest)) :
    s.step = some
      ({ s with
          current_time := e.time,
          components := VTState.setComponent s.components (e.component.input e.time),
          event_queue := rest
            ++ [Event.mk (e.time + e.component.interval) (e.component.input e.time)] },
        e.time) := by
  simp only [VTState.step, h, Component.output_eq, Component.fire_eq,
    Component.input_interval]

theorem VTState.step_lens {s s2 : VTState} {t : ℚ} (h : s.step = some (s2, t)) :
    s2.event_queue.length = s.event_queue.length
    ∧ s2.components.length = s.components.length := by
  cases hm : getMin s.event_queue with
  | none =>
    rw [VTState.step, hm] at h
    exact absurd h (by simp)
  | some p =>
    obtain ⟨e, rest⟩ := p
    rw [VTState.step_some hm] at h
    simp only [Option.some.injEq, Prod.mk.injEq] at h
    obtain ⟨h1, h2⟩ := h
    subst h1
    subst h2
    have hlen : s.event_queue.length = rest.length + 1 := by
      simpa using (getMin_perm hm).length_eq
    constructor
    · simp [hlen]
    · simp [VTState.setComponent]

theorem VTState.stepOnce_lens (s : VTState) :
    s.stepOnce.event_queue.length = s.event_queue.length
    ∧ s.stepOnce.components.length = s.components.length := by
  unfold VTState.stepOnce
  cases hs : s.step with
  | none => exact ⟨rfl, rfl⟩
  | some p =>
    obtain ⟨s2, t⟩ := p
    exact VTState.step_lens hs

theorem VTState.good_update {s : VTState} (hs : s.Good) {ca : List Component}
    (hca : ∀ c ∈ ca, 0 ≤ c.offset ∧ 0 ≤ c.interval) : (s.update ca).Good := by
  intro e he
  simp only [VTState.update, List.map_map] at he ⊢
  rcases List.mem_append.mp he with hold | hnew
  · exact hs e hold
  · simp only [List.mem_map, Function.comp_def] at hnew
    obtain ⟨c0, hc0, rfl⟩ := hnew
    have h1 := (hca c0 hc0).1
    have h2 := (hca c0 hc0).2
    refine ⟨?_, by simpa using h2⟩
    simp only [Component.fire_eq, Component.input_offset, Component.input_interval,
      Component.input_last_input_time]
    linarith

theorem VTState.good_step {s s2 : VTState} {t : ℚ} (hs : s.Good)
    (h : s.step = some (s2, t)) :
    s2.Good ∧ s.current_time ≤ t ∧ t = s2.current_time := by
  cases hm : getMin s.event_queue with
  | none =>
    rw [VTState.step, hm] at h
    exact absurd h (by simp)
  | some p =>
    obtain ⟨e, rest⟩ := p
    rw [VTState.step_some hm] at h
    simp only [Option.some.injEq, Prod.mk.injEq] at h
    obtain ⟨h1, h2⟩ := h
    subst h1
    subst h2
    have hperm := getMin_perm hm
    have hemem : e ∈ s.event_queue := hperm.mem_iff.mpr (List.mem_cons_self e rest)
    have hrest : ∀ x ∈ rest, x ∈ s.event_queue := fun x hx =>
      hperm.mem_iff.mpr (List.mem_cons_of_mem e hx)
    refine ⟨?_, (hs e hemem).1, rfl⟩
    intro x hx
    rcases List.mem_append.mp hx with hxr | hxn
    · exact ⟨getMin_le hm x (hrest x hxr), (hs x (hrest x hxr)).2⟩
    · have hint : 0 ≤ e.component.interval := (hs e hemem).2
      simp only [List.mem_singleton] at hxn
      subst hxn
      exact ⟨by simpa using hint, by simpa using hint⟩

theorem VTState.good_stepOnce {s : VTState} (hs : s.Good) :
    s.stepOnce.Good ∧ s.current_time ≤ s.stepOnce.current_time := by
  unfold VTState.stepOnce
  cases h : s.step with
  | none => exact ⟨hs, le_refl _⟩
  | some p =>
    obtain ⟨s2, t⟩ := p
    obtain ⟨hg, hle, ht⟩ := VTState.good_step hs h
    exact ⟨hg, ht ▸ hle⟩

theorem VTState.good_stepN {s : VTState} (hs : s.Good) (n : ℕ) :
    (s.stepN n).Good ∧ s.current_time ≤ (s.stepN n).current_time := by
  induction n with
  | zero => exact ⟨hs, le_refl _⟩
  | succ k ih =>
    obtain ⟨hg, hle⟩ := ih
    obtain ⟨hg2, hle2⟩ := VTState.good_stepOnce hg
    exact ⟨hg2, le_trans hle hle2⟩

/-! ## Claims about the event-queue scheduler -/

/-- Claim C2 counterexample: after `update([compA])` followed by a second
`update([compB])`, the event queue holds 2 events while only 1 component is
bound — the second `update` does not discard the prior event state. -/
theorem C2_counterexample :
    ¬ ((vtEx.update [compB]).event_queue.length
        = (vtEx.update [compB]).components.length) := by
  decide

/-- Claim C2 amended: after `update(source)` the queue has gained exactly one
event per newly bound component ON TOP of whatever was queued before (the
queue is not cleared on rebind), so starting from a fresh scheduler a single
`update` establishes queue size = number of bound components; every `step()`
consumes one event and re-inserts exactly one successor event for the same
component (same `id`, scheduled `interval` later), preserving both sizes; but
after a second `update` the queue holds the stale events plus the new ones. -/
theorem C2_queue_size (s : VTState) (ca : List Component) :
    ((s.update ca).event_queue.length = s.event_queue.length + ca.length
      ∧ (s.update ca).components.length = ca.length)
    ∧ (∀ (s2 : VTState) (t : ℚ), s.step = some (s2, t) →
        s2.event_queue.length = s.event_queue.length
        ∧ s2.components.length = s.components.length)
    ∧ (∀ (e : Event) (rest : List Event), getMin s.event_queue = some (e, rest) →
        ∃ s2, s.step = some (s2, e.time)
          ∧ s2.event_queue
              = rest ++ [Event.mk (e.time + e.component.interval) (e.component.input e.time)]
          ∧ (e.component.input e.time).id = e.component.id)
    ∧ (∀ n : ℕ,
        ((VTState.init.update ca).stepN n).event_queue.length = ca.length
        ∧ ((VTState.init.update ca).stepN n).components.length = ca.length) := by
  refine ⟨⟨by simp [VTState.update], by simp [VTState.update]⟩,
    fun s2 t h => VTState.step_lens h,
    fun e rest hm => ⟨_, VTState.step_some hm, rfl, rfl⟩, fun n => ?_⟩
  induction n with
  | zero => exact ⟨by simp [VTState.update, VTState.init, VTState.stepN],
      by simp [VTState.update, VTState.init, VTState.stepN]⟩
  | succ k ih =>
    obtain ⟨hq, hc⟩ := ih
    obtain ⟨hq2, hc2⟩ := VTState.stepOnce_lens ((VTState.init.update ca).stepN k)
    exact ⟨by rw [VTState.stepN, hq2, hq], by rw [VTState.stepN, hc2, hc]⟩

/-- Claim C2 witness: on the concrete scheduler `vtEx` (one bound component,
one queued event) a `step()` succeeds and preserves the queue size and the
component count. -/
theorem C2_queue_size_witness :
    vtExStep.1.event_queue.length = vtEx.event_queue.length
    ∧ vtExStep.1.components.length = vtEx.components.length :=
  (C2_queue_size vtEx []).2.1 vtExStep.1 vtExStep.2 rfl

/-- Claim C8: provided every bound component has non-negative `offset` and
`interval`, a fresh `update` establishes the invariant that every queued
event is scheduled no earlier than `current_time` (with non-negative
component intervals); each successful `step()` preserves the invariant and
returns the new `current_time`, which never decreases — hence successive
`step()` return values are non-decreasing. -/
theorem C8_monotonic :
    (∀ ca : List Component, (∀ c ∈ ca, 0 ≤ c.offset ∧ 0 ≤ c.interval) →
        (VTState.init.update ca).Good)
    ∧ (∀ (s s2 : VTState) (t : ℚ), s.Good → s.step = some (s2, t) →
        s2.Good ∧ s.current_time ≤ t ∧ t = s2.current_time)
    ∧ (∀ (s : VTState) (n : ℕ), s.Good →
        (s.stepN n).Good ∧ s.current_time ≤ (s.stepN n).current_time) := by
  refine ⟨fun ca hca => ?_, fun s s2 t hs h => VTState.good_step hs h,
    fun s n hs => VTState.good_stepN hs n⟩
  have hinit : VTState.init.Good := by
    intro e he
    exact absurd he (List.not_mem_nil e)
  exact VTState.good_update hinit hca

/-- Claim C8 witness: the invariant holds concretely after binding
`[compA, compB]` to a fresh event-queue scheduler, and after two steps of
`vtEx` the time cursor has not decreased. -/
theorem C8_witness :
    (VTState.init.update [compA, compB]).Good
    ∧ ((vtEx.stepN 2).Good ∧ vtEx.current_time ≤ (vtEx.stepN 2).current_time) := by
  have hAB : ∀ c ∈ [compA, compB], 0 ≤ c.offset ∧ 0 ≤ c.interval := by
    intro c hc
    rcases List.mem_cons.mp hc with rfl | hc
    · constructor <;> norm_num [compA]
    · rcases List.mem_cons.mp hc with rfl | hc
      · constructor <;> norm_num [compB]
      · exact absurd hc (List.not_mem_nil c)
  have hA : ∀ c ∈ [compA], 0 ≤ c.offset ∧ 0 ≤ c.interval := by
    intro c hc
    rcases List.mem_cons.mp hc with rfl | hc
    · constructor <;> norm_num [compA]
    · exact absurd hc (List.not_mem_nil c)
  exact ⟨C8_monotonic.1 [compA, compB] hAB,
    C8_monotonic.2.2 vtEx 2 (C8_monotonic.1 [compA] hA)⟩

/-! ## Real-time scheduler lemmas -/

theorem RTState.step_lagged (s : RTState) (tr : RTState.RTTrace) :
    (s.step tr).1.lagged = some (decide (s.interval - tr.fireDur < 0)) := rfl

theorem RTState.step_lagged_true_iff (s : RTState) (tr : RTState.RTTrace) :
    (s.step tr).1.lagged = some true ↔ s.interval < tr.fireDur := by
  simp only [RTState.step, Option.some.injEq, decide_eq_true_eq]
  exact sub_neg

theorem RTState.step_keeps_interval (s : RTState) (tr : RTState.RTTrace) :
    (s.step tr).1.interval = s.interval := rfl

theorem RTState.step_step_lagged (s : RTState) (tr tr2 : RTState.RTTrace) :
    ((s.step tr).1.step tr2).1.lagged = some (decide (s.interval < tr2.fireDur)) := by
  simp only [RTState.step, Option.some.injEq]
  exact decide_eq_decide.mpr sub_neg

/-! ## Claims about the real-time scheduler -/

/-- Claim C4: after any `step()` of `RealTimeSyncScheduler`, `last_spent` is
the measured input+fire duration, and `lagged` is true iff that measured
duration strictly exceeds `interval`; when the step is lagged no pacing sleep
is requested; and `lagged` is recomputed by every step (the value after a
second step depends only on that step's fire duration, not on the previous
`lagged`). -/
theorem C4_lagged (s : RTState) (tr : RTState.RTTrace) :
    ((s.step tr).1.last_spent = tr.fireDur)
    ∧ ((s.step tr).1.lagged = some true ↔ s.interval < tr.fireDur)
    ∧ (s.interval < tr.fireDur → (s.step tr).2.2.sleepRequested = 0)
    ∧ (∀ tr2 : RTState.RTTrace,
        ((s.step tr).1.step tr2).1.lagged = some (decide (s.interval < tr2.fireDur))) := by
  refine ⟨rfl, RTState.step_lagged_true_iff s tr, fun hlt => ?_,
    RTState.step_step_lagged s tr⟩
  simp only [RTState.step]
  rw [if_neg (by linarith)]

/-- Claim C4 witness: with `interval = 1`, a step whose fire phase costs 2 is
lagged and requests no sleep; a following step whose fire phase costs 1/4 has
`lagged = false` again. -/
theorem C4_witness :
    (rtEx.step trLag).1.lagged = some true
    ∧ (rtEx.step trLag).2.2.sleepRequested = 0
    ∧ ((rtEx.step trLag).1.step trFast).1.lagged = some false :=
  ⟨(C4_lagged rtEx trLag).2.1.mpr (by norm_num [rtEx, RTState.preInit, trLag]),
   (C4_lagged rtEx trLag).2.2.1 (by norm_num [rtEx, RTState.preInit, trLag]),
   ((C4_lagged rtEx trLag).2.2.2 trFast).trans
     (by norm_num [rtEx, RTState.preInit, trFast])⟩

/-- Claim C5: under the monotonic-clock and best-effort-sleep model, the
elapsed time between the start of the input phase (`last_input_time`) and
the start of the output phase is at least `interval`; if the fire phase
overran (making it arbitrarily longer), `lagged` is set for that step, and
only for that step (the next step recomputes it from its own fire
duration). -/
theorem C5_min_spacing (s : RTState) (tr : RTState.RTTrace)
    (hv : tr.Valid s.interval) :
    s.interval ≤ (s.step tr).2.2.outputPhaseStart - (s.step tr).2.2.inputPhaseStart
    ∧ (s.interval < tr.fireDur → (s.step tr).1.lagged = some true)
    ∧ (∀ tr2 : RTState.RTTrace,
        ((s.step tr).1.step tr2).1.lagged = some (decide (s.interval < tr2.fireDur))) := by
  obtain ⟨hf, ho, hg, hsleep⟩ := hv
  refine ⟨?_, fun hlt => (RTState.step_lagged_true_iff s tr).mpr hlt,
    RTState.step_step_lagged s tr⟩
  simp only [RTState.step]
  linarith

/-- Claim C5 witness: with `interval = 1`, a step whose fire phase costs 1/4
and whose pacing sleep runs the requested 3/4 achieves an input-to-output
spacing of at least 1. -/
theorem C5_witness :
    rtEx.interval
      ≤ (rtEx.step trFast).2.2.outputPhaseStart - (rtEx.step trFast).2.2.inputPhaseStart :=
  (C5_min_spacing rtEx trFast
    (by norm_num [RTState.RTTrace.Valid, rtEx, RTState.preInit, trFast])).1

/-- Claim C9: configuring the real-time scheduler fails (AssertionError)
exactly when the supplied interval is non-positive, both at construction and
via `set_interval`; on success the stored `interval` equals the supplied
value, never clamped. -/
theorem C9_interval_validation (i : ℚ) :
    ((∃ r, RTState.make i = Except.ok r) ↔ 0 < i)
    ∧ (∀ s : RTState, (∃ r, s.set_interval i = Except.ok r) ↔ 0 < i)
    ∧ (∀ s r : RTState, s.set_interval i = Except.ok r → r.interval = i)
    ∧ (∀ r : RTState, RTState.make i = Except.ok r → r.interval = i)
    ∧ (i ≤ 0 → RTState.make i = Except.error PyError.assertionError
        ∧ ∀ s : RTState, s.set_interval i = Except.error PyError.assertionError) := by
  have hset : ∀ s : RTState, s.set_interval i
      = if 0 < i then Except.ok { s with interval := i }
        else Except.error PyError.assertionError := fun s => rfl
  by_cases hi : 0 < i
  · refine ⟨?_, fun s => ?_, fun s r h => ?_, fun r h => ?_, fun hle => absurd hi (not_lt.mpr hle)⟩
    · rw [RTState.make, hset, if_pos hi]
      exact ⟨fun _ => hi, fun _ => ⟨_, rfl⟩⟩
    · rw [hset, if_pos hi]
      exact ⟨fun _ => hi, fun _ => ⟨_, rfl⟩⟩
    · rw [hset, if_pos hi] at h
      cases h
      rfl
    · rw [RTState.make, hset, if_pos hi] at h
      cases h
      rfl
  · refine ⟨?_, fun s => ?_, fun s r h => ?_, fun r h => ?_,
      fun _ => ⟨by rw [RTState.make, hset, if_neg hi], fun s => by rw [hset, if_neg hi]⟩⟩
    · rw [RTState.make, hset, if_neg hi]
      exact ⟨fun ⟨r, hr⟩ => absurd hr (by simp), fun h => absurd h hi⟩
    · rw [hset, if_neg hi]
      exact ⟨fun ⟨r, hr⟩ => absurd hr (by simp), fun h => absurd h hi⟩
    · rw [hset, if_neg hi] at h
      exact absurd h (by simp)
    · rw [RTState.make, hset, if_neg hi] at h
      exact absurd h (by simp)

/-- Claim C9 witness: constructing with interval 1 succeeds and stores 1;
constructing with interval -1 raises AssertionError. -/
theorem C9_witness :
    rtEx.interval = 1
    ∧ RTState.make (-1) = Except.error PyError.assertionError :=
  ⟨(C9_interval_validation 1).2.2.2.1 rtEx
     (by norm_num [RTState.make, RTState.set_interval, rtEx]),
   (((C9_interval_validation (-1)).2.2.2.2) (by norm_num)).1⟩

/-- Claim C10: a freshly constructed `RealTimeSyncScheduler` has never
assigned `lagged` (reading it raises AttributeError, modelled as `none`),
and `lagged` is first assigned inside `step()`; `last_dt` is set to -1.0 at
construction and never updated by `step()`, which writes a local variable
instead. -/
theorem C10_uninitialised :
    (∀ (i : ℚ) (r : RTState), RTState.make i = Except.ok r →
        r.lagged = none ∧ r.last_dt = -1)
    ∧ (∀ (s : RTState) (tr : RTState.RTTrace),
        ((s.step tr).1.lagged).isSome = true ∧ (s.step tr).1.last_dt = s.last_dt) := by
  constructor
  · intro i r h
    rw [RTState.make, RTState.set_interval] at h
    by_cases hi : 0 < i
    · rw [if_pos hi] at h
      cases h
      exact ⟨rfl, rfl⟩
    · rw [if_neg hi] at h
      exact absurd h (by simp)
  · intro s tr
    exact ⟨rfl, rfl⟩

/-- Claim C10 witness: the concrete scheduler built by
`RealTimeSyncScheduler(1)` has `lagged` unassigned and `last_dt = -1`, and
after one concrete step `lagged` is assigned while `last_dt` is unchanged. -/
theorem C10_witness :
    rtEx.lagged = none ∧ rtEx.last_dt = -1
    ∧ ((rtEx.step trFast).1.lagged).isSome = true
    ∧ (rtEx.step trFast).1.last_dt = rtEx.last_dt :=
  ⟨(C10_uninitialised.1 1 rtEx
      (by norm_num [RTState.make, RTState.set_interval, rtEx])).1,
   (C10_uninitialised.1 1 rtEx
      (by norm_num [RTState.make, RTState.set_interval, rtEx])).2,
   (C10_uninitialised.2 rtEx trFast).1, (C10_uninitialised.2 rtEx trFast).2⟩

end BriCA
